import Mathlib

/-!
Verification of the waveform engine of the RC-circuit visualizer (`src/app.py`).

The computational core is the callback `update_graphs(R_ohm, C_micro_f, U0,
mode_is_charge)` (lines 243-267 of `app.py`): it converts the capacitance from
microfarads to farads, forms the time constant `tau = R * C`, the window
`t_max = max(5 * tau, 0.01)`, samples 500 evenly spaced points with
`np.linspace(0, t_max, 500)`, and evaluates the closed-form charging or
discharging waveforms for capacitor voltage `Uc`, charge `Q` and current `I`.

The numpy arrays are embedded as lists of real numbers; the floating-point
arithmetic of the source is modelled by exact real arithmetic, with `Real.exp`
for `np.exp`.  The mode toggle is the boolean `mode_is_charge`, exactly as in
the source (`True` = charging).
-/

set_option maxRecDepth 8000

namespace RC

/-- The record of values the callback computes from the four inputs: the time
grid `t`, the three waveform arrays `Uc`, `Q`, `I`, and the scalars `tau` and
`t_max`.  (The source additionally builds plotly figures and strings from these
values; those presentation artefacts carry no further computation.) -/
structure WaveformResult where
  t : List ℝ
  Uc : List ℝ
  Q : List ℝ
  I : List ℝ
  tau : ℝ
  t_max : ℝ

/-- `np.linspace(a, b, n)`: `n` evenly spaced samples from `a` to `b`,
with step `(b - a) / (n - 1)`. -/
noncomputable def linspace (a b : ℝ) (n : ℕ) : List ℝ :=
  (List.range n).map (fun i : ℕ => a + (b - a) * (i : ℝ) / ((n - 1 : ℕ) : ℝ))

/-- The computational core of the callback `update_graphs` in `app.py`
(lines 249-267), with the plotting and string formatting stripped:

```
C = C_micro_f * 1e-6
tau = R_ohm * C
t_max = max(5 * tau, 0.01)
t = np.linspace(0, t_max, 500)
if mode_is_charge:
    Uc = U0 * (1 - np.exp(-t / tau))
    Q = C * Uc
    I = (U0 / R_ohm) * np.exp(-t / tau)
else:
    Uc = U0 * np.exp(-t / tau)
    Q = C * U0 * np.exp(-t / tau)
    I = -(U0 / R_ohm) * np.exp(-t / tau)
```
-/
noncomputable def update_graphs (R_ohm C_micro_f U0 : ℝ) (mode_is_charge : Bool) :
    WaveformResult :=
  let C := C_micro_f * 1e-6
  let tau := R_ohm * C
  let t_max := max (5 * tau) 0.01
  let t := linspace 0 t_max 500
  if mode_is_charge then
    let Uc := t.map (fun ti => U0 * (1 - Real.exp (-ti / tau)))
    let Q := Uc.map (fun u => C * u)
    let I := t.map (fun ti => U0 / R_ohm * Real.exp (-ti / tau))
    ⟨t, Uc, Q, I, tau, t_max⟩
  else
    let Uc := t.map (fun ti => U0 * Real.exp (-ti / tau))
    let Q := t.map (fun ti => C * U0 * Real.exp (-ti / tau))
    let I := t.map (fun ti => -(U0 / R_ohm) * Real.exp (-ti / tau))
    ⟨t, Uc, Q, I, tau, t_max⟩

/-- The capacitance in farads: `C = C_micro * 1e-6` (app.py line 249). -/
noncomputable def capacitance (C_micro : ℝ) : ℝ := C_micro * 1e-6

/-- The time constant `tau = R * C` in seconds (app.py line 250). -/
noncomputable def timeConstant (R C_micro : ℝ) : ℝ := R * capacitance C_micro

/-- The simulated window length `t_max = max(5 * tau, 0.01)` (app.py line 253). -/
noncomputable def windowLength (R C_micro : ℝ) : ℝ :=
  max (5 * timeConstant R C_micro) 0.01

/-- The `i`-th sample time of `np.linspace(0, t_max, 500)`:
`t_i = t_max * i / 499` (app.py line 254). -/
noncomputable def sampleTime (R C_micro : ℝ) (i : ℕ) : ℝ :=
  windowLength R C_micro * i / 499

/-! ### Projection lemmas: the fields of `update_graphs` in closed form -/

lemma update_graphs_tau (R Cm U0 : ℝ) (m : Bool) :
    (update_graphs R Cm U0 m).tau = timeConstant R Cm := by
  cases m <;> rfl

lemma update_graphs_t_max (R Cm U0 : ℝ) (m : Bool) :
    (update_graphs R Cm U0 m).t_max = windowLength R Cm := by
  cases m <;> rfl

lemma update_graphs_t_eq_linspace (R Cm U0 : ℝ) (m : Bool) :
    (update_graphs R Cm U0 m).t = linspace 0 (windowLength R Cm) 500 := by
  cases m <;> rfl

lemma update_graphs_t (R Cm U0 : ℝ) (m : Bool) :
    (update_graphs R Cm U0 m).t = (List.range 500).map (sampleTime R Cm) := by
  rw [update_graphs_t_eq_linspace, linspace]
  refine List.map_congr_left (fun i _ => ?_)
  rw [sampleTime]
  push_cast
  ring

lemma update_graphs_Uc_charge_t (R Cm U0 : ℝ) :
    (update_graphs R Cm U0 true).Uc =
      ((update_graphs R Cm U0 true).t).map
        (fun ti => U0 * (1 - Real.exp (-ti / timeConstant R Cm))) := rfl

lemma update_graphs_Q_charge_t (R Cm U0 : ℝ) :
    (update_graphs R Cm U0 true).Q =
      ((update_graphs R Cm U0 true).Uc).map (fun u => capacitance Cm * u) := rfl

lemma update_graphs_I_charge_t (R Cm U0 : ℝ) :
    (update_graphs R Cm U0 true).I =
      ((update_graphs R Cm U0 true).t).map
        (fun ti => U0 / R * Real.exp (-ti / timeConstant R Cm)) := rfl

lemma update_graphs_Uc_discharge_t (R Cm U0 : ℝ) :
    (update_graphs R Cm U0 false).Uc =
      ((update_graphs R Cm U0 false).t).map
        (fun ti => U0 * Real.exp (-ti / timeConstant R Cm)) := rfl

lemma update_graphs_Q_discharge_t (R Cm U0 : ℝ) :
    (update_graphs R Cm U0 false).Q =
      ((update_graphs R Cm U0 false).t).map
        (fun ti => capacitance Cm * U0 * Real.exp (-ti / timeConstant R Cm)) := rfl

lemma update_graphs_I_discharge_t (R Cm U0 : ℝ) :
    (update_graphs R Cm U0 false).I =
      ((update_graphs R Cm U0 false).t).map
        (fun ti => -(U0 / R) * Real.exp (-ti / timeConstant R Cm)) := rfl

lemma update_graphs_Uc_charge (R Cm U0 : ℝ) :
    (update_graphs R Cm U0 true).Uc =
      (List.range 500).map
        (fun i => U0 * (1 - Real.exp (-sampleTime R Cm i / timeConstant R Cm))) := by
  rw [update_graphs_Uc_charge_t, update_graphs_t, List.map_map]
  rfl

lemma update_graphs_Q_charge (R Cm U0 : ℝ) :
    (update_graphs R Cm U0 true).Q =
      (List.range 500).map
        (fun i => capacitance Cm *
          (U0 * (1 - Real.exp (-sampleTime R Cm i / timeConstant R Cm)))) := by
  rw [update_graphs_Q_charge_t, update_graphs_Uc_charge, List.map_map]
  rfl

lemma update_graphs_I_charge (R Cm U0 : ℝ) :
    (update_graphs R Cm U0 true).I =
      (List.range 500).map
        (fun i => U0 / R * Real.exp (-sampleTime R Cm i / timeConstant R Cm)) := by
  rw [update_graphs_I_charge_t, update_graphs_t, List.map_map]
  rfl

lemma update_graphs_Uc_discharge (R Cm U0 : ℝ) :
    (update_graphs R Cm U0 false).Uc =
      (List.range 500).map
        (fun i => U0 * Real.exp (-sampleTime R Cm i / timeConstant R Cm)) := by
  rw [update_graphs_Uc_discharge_t, update_graphs_t, List.map_map]
  rfl

lemma update_graphs_Q_discharge (R Cm U0 : ℝ) :
    (update_graphs R Cm U0 false).Q =
      (List.range 500).map
        (fun i => capacitance Cm * U0 *
          Real.exp (-sampleTime R Cm i / timeConstant R Cm)) := by
  rw [update_graphs_Q_discharge_t, update_graphs_t, List.map_map]
  rfl

lemma update_graphs_I_discharge (R Cm U0 : ℝ) :
    (update_graphs R Cm U0 false).I =
      (List.range 500).map
        (fun i => -(U0 / R) * Real.exp (-sampleTime R Cm i / timeConstant R Cm)) := by
  rw [update_graphs_I_discharge_t, update_graphs_t, List.map_map]
  rfl

/-! ### Basic facts about the scalar quantities -/

lemma capacitance_pos {Cm : ℝ} (hC : 0 < Cm) : 0 < capacitance Cm := by
  rw [capacitance]; positivity

lemma timeConstant_pos {R Cm : ℝ} (hR : 0 < R) (hC : 0 < Cm) :
    0 < timeConstant R Cm := by
  rw [timeConstant]
  exact mul_pos hR (capacitance_pos hC)

lemma windowLength_pos (R Cm : ℝ) : 0 < windowLength R Cm :=
  lt_of_lt_of_le (by norm_num) (le_max_right _ _)

lemma sampleTime_nonneg (R Cm : ℝ) (i : ℕ) : 0 ≤ sampleTime R Cm i := by
  rw [sampleTime]
  have := (windowLength_pos R Cm).le
  positivity

lemma sampleTime_zero (R Cm : ℝ) : sampleTime R Cm 0 = 0 := by
  simp [sampleTime]

lemma sampleTime_lt_sampleTime (R Cm : ℝ) {i j : ℕ} (hij : i < j) :
    sampleTime R Cm i < sampleTime R Cm j := by
  rw [sampleTime, sampleTime]
  have hij' : (i : ℝ) < (j : ℝ) := by exact_mod_cast hij
  have hw := windowLength_pos R Cm
  exact (div_lt_div_iff_of_pos_right (by norm_num)).mpr ((mul_lt_mul_left hw).mpr hij')

/-- The exponential factor `exp(-t_i / tau)` at the `i`-th sample. -/
lemma expFactor_pos (R Cm : ℝ) (i : ℕ) :
    0 < Real.exp (-sampleTime R Cm i / timeConstant R Cm) :=
  Real.exp_pos _

lemma expFactor_le_one {R Cm : ℝ} (hR : 0 < R) (hC : 0 < Cm) (i : ℕ) :
    Real.exp (-sampleTime R Cm i / timeConstant R Cm) ≤ 1 := by
  rw [Real.exp_le_one_iff]
  have hτ := timeConstant_pos hR hC
  have ht := sampleTime_nonneg R Cm i
  exact div_nonpos_of_nonpos_of_nonneg (neg_nonpos.mpr ht) hτ.le

lemma expFactor_anti {R Cm : ℝ} (hR : 0 < R) (hC : 0 < Cm) {i j : ℕ} (hij : i < j) :
    Real.exp (-sampleTime R Cm j / timeConstant R Cm) <
      Real.exp (-sampleTime R Cm i / timeConstant R Cm) := by
  apply Real.exp_lt_exp.mpr
  have hτ := timeConstant_pos hR hC
  exact (div_lt_div_iff_of_pos_right hτ).mpr (neg_lt_neg (sampleTime_lt_sampleTime R Cm hij))

/-! ### The claims -/

/-- C1: for every `R > 0`, `C_micro > 0`, `U0` and charging mode, `update_graphs`
evaluates at every sample point `t_i` of its grid the charging formulas
`U_C(t_i) = U0 * (1 - exp (-t_i / tau))`, `Q(t_i) = C * U_C(t_i)` and
`I(t_i) = (U0 / R) * exp (-t_i / tau)`, where `C = C_micro * 1e-6` and
`tau = R * C`. -/
theorem C1_charging_formulas (R Cm U0 : ℝ) (hR : 0 < R) (hC : 0 < Cm) :
    (update_graphs R Cm U0 true).Uc =
      ((update_graphs R Cm U0 true).t).map
        (fun ti => U0 * (1 - Real.exp (-ti / (R * (Cm * 1e-6))))) ∧
    (update_graphs R Cm U0 true).Q =
      ((update_graphs R Cm U0 true).t).map
        (fun ti => Cm * 1e-6 * (U0 * (1 - Real.exp (-ti / (R * (Cm * 1e-6)))))) ∧
    (update_graphs R Cm U0 true).I =
      ((update_graphs R Cm U0 true).t).map
        (fun ti => U0 / R * Real.exp (-ti / (R * (Cm * 1e-6)))) := by
  refine ⟨?_, ?_, ?_⟩
  · rw [update_graphs_Uc_charge_t]
    simp only [timeConstant, capacitance]
  · rw [update_graphs_Q_charge_t, update_graphs_Uc_charge_t, List.map_map]
    refine List.map_congr_left (fun ti _ => ?_)
    simp only [Function.comp_apply, timeConstant, capacitance]
  · rw [update_graphs_I_charge_t]
    simp only [timeConstant, capacitance]

/-- Witness for C1 at `R = 1000`, `C_micro = 100`, `U0 = 5`. -/
theorem C1_charging_formulas_witness :
    (0:ℝ) < 1000 ∧ (0:ℝ) < 100 ∧
    ((update_graphs 1000 100 (5:ℝ) true).Uc =
      ((update_graphs 1000 100 (5:ℝ) true).t).map
        (fun ti => 5 * (1 - Real.exp (-ti / (1000 * (100 * 1e-6))))) ∧
    (update_graphs 1000 100 (5:ℝ) true).Q =
      ((update_graphs 1000 100 (5:ℝ) true).t).map
        (fun ti => 100 * 1e-6 * (5 * (1 - Real.exp (-ti / (1000 * (100 * 1e-6)))))) ∧
    (update_graphs 1000 100 (5:ℝ) true).I =
      ((update_graphs 1000 100 (5:ℝ) true).t).map
        (fun ti => 5 / 1000 * Real.exp (-ti / (1000 * (100 * 1e-6))))) :=
  ⟨by norm_num, by norm_num,
    C1_charging_formulas 1000 100 5 (by norm_num) (by norm_num)⟩

/-- C2: for every `R > 0`, `C_micro > 0`, `U0` and discharging mode,
`update_graphs` evaluates at every sample point `t_i` the discharging formulas
`U_C(t_i) = U0 * exp (-t_i / tau)`, `Q(t_i) = C * U0 * exp (-t_i / tau)` and
`I(t_i) = -((U0 / R) * exp (-t_i / tau))`; in particular the discharging
current sequence is the pointwise negation of the charging current sequence
for the same inputs. -/
theorem C2_discharging_formulas (R Cm U0 : ℝ) (hR : 0 < R) (hC : 0 < Cm) :
    (update_graphs R Cm U0 false).Uc =
      ((update_graphs R Cm U0 false).t).map
        (fun ti => U0 * Real.exp (-ti / (R * (Cm * 1e-6)))) ∧
    (update_graphs R Cm U0 false).Q =
      ((update_graphs R Cm U0 false).t).map
        (fun ti => Cm * 1e-6 * U0 * Real.exp (-ti / (R * (Cm * 1e-6)))) ∧
    (update_graphs R Cm U0 false).I =
      ((update_graphs R Cm U0 false).t).map
        (fun ti => -(U0 / R * Real.exp (-ti / (R * (Cm * 1e-6))))) ∧
    (update_graphs R Cm U0 false).I =
      ((update_graphs R Cm U0 true).I).map (fun y => -y) := by
  refine ⟨?_, ?_, ?_, ?_⟩
  · rw [update_graphs_Uc_discharge_t]
    simp only [timeConstant, capacitance]
  · rw [update_graphs_Q_discharge_t]
    simp only [timeConstant, capacitance]
  · rw [update_graphs_I_discharge_t]
    simp only [timeConstant, capacitance]
    refine List.map_congr_left (fun ti _ => ?_)
    ring
  · rw [update_graphs_I_discharge, update_graphs_I_charge, List.map_map]
    refine List.map_congr_left (fun i _ => ?_)
    simp only [Function.comp]
    ring

/-- Witness for C2 at `R = 1000`, `C_micro = 100`, `U0 = 5`. -/
theorem C2_discharging_formulas_witness :
    (0:ℝ) < 1000 ∧ (0:ℝ) < 100 ∧
    ((update_graphs 1000 100 (5:ℝ) false).Uc =
      ((update_graphs 1000 100 (5:ℝ) false).t).map
        (fun ti => 5 * Real.exp (-ti / (1000 * (100 * 1e-6)))) ∧
    (update_graphs 1000 100 (5:ℝ) false).Q =
      ((update_graphs 1000 100 (5:ℝ) false).t).map
        (fun ti => 100 * 1e-6 * 5 * Real.exp (-ti / (1000 * (100 * 1e-6)))) ∧
    (update_graphs 1000 100 (5:ℝ) false).I =
      ((update_graphs 1000 100 (5:ℝ) false).t).map
        (fun ti => -(5 / 1000 * Real.exp (-ti / (1000 * (100 * 1e-6))))) ∧
    (update_graphs 1000 100 (5:ℝ) false).I =
      ((update_graphs 1000 100 (5:ℝ) true).I).map (fun y => -y)) :=
  ⟨by norm_num, by norm_num,
    C2_discharging_formulas 1000 100 5 (by norm_num) (by norm_num)⟩

/-- C3: for every `R > 0`, `C_micro > 0`, the time grid consists of exactly 500
evenly spaced samples `t_i = t_max * i / 499` over `[0, t_max]` with
`t_max = max (5 * tau) 0.01`, `tau = R * (C_micro * 1e-6)`; the grid does not
depend on the mode. -/
theorem C3_time_grid (R Cm U0 : ℝ) (hR : 0 < R) (hC : 0 < Cm) (m m' : Bool) :
    (update_graphs R Cm U0 m).t.length = 500 ∧
    (update_graphs R Cm U0 m).t =
      (List.range 500).map
        (fun i : ℕ => max (5 * (R * (Cm * 1e-6))) 0.01 * i / 499) ∧
    (update_graphs R Cm U0 m).t = (update_graphs R Cm U0 m').t := by
  refine ⟨?_, ?_, ?_⟩
  · rw [update_graphs_t, List.length_map, List.length_range]
  · rw [update_graphs_t]
    refine List.map_congr_left (fun i _ => ?_)
    simp only [sampleTime, windowLength, timeConstant, capacitance]
  · rw [update_graphs_t, update_graphs_t]

/-- Witness for C3 at `R = 1000`, `C_micro = 100`, `U0 = 5`, both modes. -/
theorem C3_time_grid_witness :
    (0:ℝ) < 1000 ∧ (0:ℝ) < 100 ∧
    ((update_graphs 1000 100 (5:ℝ) true).t.length = 500 ∧
    (update_graphs 1000 100 (5:ℝ) true).t =
      (List.range 500).map
        (fun i : ℕ => max (5 * (1000 * (100 * 1e-6))) 0.01 * (i : ℝ) / 499) ∧
    (update_graphs 1000 100 (5:ℝ) true).t = (update_graphs 1000 100 (5:ℝ) false).t) :=
  ⟨by norm_num, by norm_num,
    C3_time_grid 1000 100 5 (by norm_num) (by norm_num) true false⟩

/-- C4: in both modes the computed charge sequence is exactly the capacitance
`C = C_micro * 1e-6` times the computed voltage sequence, pointwise. -/
theorem C4_charge_eq_capacitance_mul_voltage (R Cm U0 : ℝ)
    (hR : 0 < R) (hC : 0 < Cm) (m : Bool) :
    (update_graphs R Cm U0 m).Q =
      ((update_graphs R Cm U0 m).Uc).map (fun u => Cm * 1e-6 * u) := by
  cases m
  · rw [update_graphs_Q_discharge_t, update_graphs_Uc_discharge_t, List.map_map]
    refine List.map_congr_left (fun ti _ => ?_)
    simp only [Function.comp, capacitance]
    ring
  · rw [update_graphs_Q_charge_t]
    simp only [capacitance]

/-- Witness for C4 at `R = 1000`, `C_micro = 100`, `U0 = 5`, discharging. -/
theorem C4_charge_eq_capacitance_mul_voltage_witness :
    (0:ℝ) < 1000 ∧ (0:ℝ) < 100 ∧
    (update_graphs 1000 100 (5:ℝ) false).Q =
      ((update_graphs 1000 100 (5:ℝ) false).Uc).map (fun u => 100 * 1e-6 * u) :=
  ⟨by norm_num, by norm_num,
    C4_charge_eq_capacitance_mul_voltage 1000 100 5 (by norm_num) (by norm_num) false⟩

/-- C5 as stated fails at `U0 = 0`, a value inside the claimed domain
`U0 ≥ 0`: there the charging current sequence is identically `0`, hence not
strictly positive (and the discharging sequence is not strictly negative).
Concretely, at `R = 1000`, `C_micro = 100`, `U0 = 0` the value `0` occurs in
the charging current list. -/
theorem C5_counterexample :
    (0:ℝ) ∈ (update_graphs 1000 100 0 true).I ∧
    ¬ (∀ y ∈ (update_graphs 1000 100 0 true).I, (0:ℝ) < y) := by
  have hmem : (0:ℝ) ∈ (update_graphs 1000 100 0 true).I := by
    rw [update_graphs_I_charge]
    refine List.mem_map.mpr ⟨0, List.mem_range.mpr (by norm_num), ?_⟩
    norm_num
  exact ⟨hmem, fun h => lt_irrefl 0 (h 0 hmem)⟩

/-- C5 (amended: `U0 > 0` instead of `U0 ≥ 0`): the charging current sequence
is strictly positive and strictly decreasing along the grid, and the
discharging current sequence is strictly negative and strictly increasing
toward 0. -/
theorem C5_current_sign_monotone (R Cm U0 : ℝ)
    (hR : 0 < R) (hC : 0 < Cm) (hU : 0 < U0) :
    (∀ y ∈ (update_graphs R Cm U0 true).I, 0 < y) ∧
    ((update_graphs R Cm U0 true).I).Pairwise (fun a b => b < a) ∧
    (∀ y ∈ (update_graphs R Cm U0 false).I, y < 0) ∧
    ((update_graphs R Cm U0 false).I).Pairwise (fun a b => a < b) := by
  have hq : 0 < U0 / R := div_pos hU hR
  refine ⟨?_, ?_, ?_, ?_⟩
  · rw [update_graphs_I_charge]
    intro y hy
    obtain ⟨i, -, rfl⟩ := List.mem_map.mp hy
    exact mul_pos hq (expFactor_pos R Cm i)
  · rw [update_graphs_I_charge, List.pairwise_map]
    refine (List.pairwise_lt_range 500).imp ?_
    intro i j hij
    exact mul_lt_mul_of_pos_left (expFactor_anti hR hC hij) hq
  · rw [update_graphs_I_discharge]
    intro y hy
    obtain ⟨i, -, rfl⟩ := List.mem_map.mp hy
    exact mul_neg_of_neg_of_pos (neg_lt_zero.mpr hq) (expFactor_pos R Cm i)
  · rw [update_graphs_I_discharge, List.pairwise_map]
    refine (List.pairwise_lt_range 500).imp ?_
    intro i j hij
    simp only [neg_mul]
    exact neg_lt_neg (mul_lt_mul_of_pos_left (expFactor_anti hR hC hij) hq)

/-- Witness for the amended C5 at `R = 1000`, `C_micro = 100`, `U0 = 5`. -/
theorem C5_current_sign_monotone_witness :
    (0:ℝ) < 1000 ∧ (0:ℝ) < 100 ∧ (0:ℝ) < 5 ∧
    ((∀ y ∈ (update_graphs 1000 100 (5:ℝ) true).I, 0 < y) ∧
    ((update_graphs 1000 100 (5:ℝ) true).I).Pairwise (fun a b => b < a) ∧
    (∀ y ∈ (update_graphs 1000 100 (5:ℝ) false).I, y < 0) ∧
    ((update_graphs 1000 100 (5:ℝ) false).I).Pairwise (fun a b => a < b)) :=
  ⟨by norm_num, by norm_num, by norm_num,
    C5_current_sign_monotone 1000 100 5 (by norm_num) (by norm_num) (by norm_num)⟩

/-- C6: for `R > 0`, `C_micro > 0`, `U0 ≥ 0`, the charging voltage sequence is
monotonically increasing and stays below `U0`, and the discharging voltage
sequence is monotonically decreasing and stays above `0`. -/
theorem C6_voltage_monotone (R Cm U0 : ℝ)
    (hR : 0 < R) (hC : 0 < Cm) (hU : 0 ≤ U0) :
    ((update_graphs R Cm U0 true).Uc).Pairwise (fun a b => a ≤ b) ∧
    (∀ y ∈ (update_graphs R Cm U0 true).Uc, y ≤ U0) ∧
    ((update_graphs R Cm U0 false).Uc).Pairwise (fun a b => b ≤ a) ∧
    (∀ y ∈ (update_graphs R Cm U0 false).Uc, 0 ≤ y) := by
  refine ⟨?_, ?_, ?_, ?_⟩
  · rw [update_graphs_Uc_charge, List.pairwise_map]
    refine (List.pairwise_lt_range 500).imp ?_
    intro i j hij
    have := expFactor_anti hR hC hij
    exact mul_le_mul_of_nonneg_left (by linarith) hU
  · rw [update_graphs_Uc_charge]
    intro y hy
    obtain ⟨i, -, rfl⟩ := List.mem_map.mp hy
    have := expFactor_pos R Cm i
    calc U0 * (1 - Real.exp (-sampleTime R Cm i / timeConstant R Cm))
        ≤ U0 * 1 := mul_le_mul_of_nonneg_left (by linarith) hU
      _ = U0 := mul_one U0
  · rw [update_graphs_Uc_discharge, List.pairwise_map]
    refine (List.pairwise_lt_range 500).imp ?_
    intro i j hij
    exact mul_le_mul_of_nonneg_left (expFactor_anti hR hC hij).le hU
  · rw [update_graphs_Uc_discharge]
    intro y hy
    obtain ⟨i, -, rfl⟩ := List.mem_map.mp hy
    exact mul_nonneg hU (expFactor_pos R Cm i).le

/-- Witness for C6 at `R = 1000`, `C_micro = 100`, `U0 = 5`. -/
theorem C6_voltage_monotone_witness :
    (0:ℝ) < 1000 ∧ (0:ℝ) < 100 ∧ (0:ℝ) ≤ 5 ∧
    (((update_graphs 1000 100 (5:ℝ) true).Uc).Pairwise (fun a b => a ≤ b) ∧
    (∀ y ∈ (update_graphs 1000 100 (5:ℝ) true).Uc, y ≤ 5) ∧
    ((update_graphs 1000 100 (5:ℝ) false).Uc).Pairwise (fun a b => b ≤ a) ∧
    (∀ y ∈ (update_graphs 1000 100 (5:ℝ) false).Uc, 0 ≤ y)) :=
  ⟨by norm_num, by norm_num, by norm_num,
    C6_voltage_monotone 1000 100 5 (by norm_num) (by norm_num) (by norm_num)⟩

/-- C7 as stated fails at the boundary `5 * tau = 0.01`: with `R = 2000` and
`C_micro = 1` (both inside the UI range) the window equals the floor `0.01`
although `5 * tau < 0.01` is false (`5 * tau = 0.01` exactly). -/
theorem C7_counterexample :
    (update_graphs 2000 1 (5:ℝ) true).t_max = 0.01 ∧
    ¬ (5 * timeConstant 2000 1 < 0.01) := by
  constructor
  · rw [update_graphs_t_max, windowLength]
    norm_num [timeConstant, capacitance]
  · norm_num [timeConstant, capacitance]

/-- C7 (amended: the strict `5 * tau < eps` becomes `5 * tau ≤ eps`): the
window length always satisfies `t_max ≥ 5 * tau`, and it equals the floor
`0.01` only when `5 * tau ≤ 0.01`. -/
theorem C7_window_length (R Cm : ℝ) (hR : 0 < R) (hC : 0 < Cm)
    (U0 : ℝ) (m : Bool) :
    5 * timeConstant R Cm ≤ (update_graphs R Cm U0 m).t_max ∧
    ((update_graphs R Cm U0 m).t_max = 0.01 → 5 * timeConstant R Cm ≤ 0.01) := by
  rw [update_graphs_t_max, windowLength]
  exact ⟨le_max_left _ _, fun h => h ▸ le_max_left _ _⟩

/-- Witness for the amended C7 at `R = 2000`, `C_micro = 1`, `U0 = 5`. -/
theorem C7_window_length_witness :
    (0:ℝ) < 2000 ∧ (0:ℝ) < 1 ∧
    (5 * timeConstant 2000 1 ≤ (update_graphs 2000 1 (5:ℝ) true).t_max ∧
    ((update_graphs 2000 1 (5:ℝ) true).t_max = 0.01 →
      5 * timeConstant 2000 1 ≤ 0.01)) :=
  ⟨by norm_num, by norm_num,
    C7_window_length 2000 1 (by norm_num) (by norm_num) 5 true⟩

lemma head?_map_eq {α β : Type} (f : α → β) (l : List α) :
    (l.map f).head? = l.head?.map f := by
  cases l <;> rfl

lemma range_500_head? : (List.range 500).head? = some 0 := by
  rw [show (500:ℕ) = 499 + 1 from rfl, List.range_succ_eq_map]
  rfl

lemma sampleTime_le_windowLength (R Cm : ℝ) {i : ℕ} (hi : i < 500) :
    sampleTime R Cm i ≤ windowLength R Cm := by
  rw [sampleTime, div_le_iff₀ (by norm_num : (0:ℝ) < 499)]
  have hw := (windowLength_pos R Cm).le
  have hi' : (i : ℝ) ≤ 499 := by exact_mod_cast (by omega : i ≤ 499)
  exact mul_le_mul_of_nonneg_left hi' hw

/-- C8: for `R > 0`, `C_micro > 0`, `U0 ≥ 0`: the time constant `tau = R * C`
is strictly positive, the first sample of the time grid is exactly `0`, and
the first voltage sample is exactly `0` when charging and exactly `U0` when
discharging. -/
theorem C8_initial_values (R Cm U0 : ℝ)
    (hR : 0 < R) (hC : 0 < Cm) (hU : 0 ≤ U0) :
    (∀ m, (update_graphs R Cm U0 m).tau = R * (Cm * 1e-6) ∧
      0 < (update_graphs R Cm U0 m).tau) ∧
    (∀ m, (update_graphs R Cm U0 m).t.head? = some 0) ∧
    (update_graphs R Cm U0 true).Uc.head? = some 0 ∧
    (update_graphs R Cm U0 false).Uc.head? = some U0 := by
  refine ⟨fun m => ⟨?_, ?_⟩, fun m => ?_, ?_, ?_⟩
  · rw [update_graphs_tau, timeConstant, capacitance]
  · rw [update_graphs_tau]
    exact timeConstant_pos hR hC
  · rw [update_graphs_t, head?_map_eq, range_500_head?]
    simp [sampleTime_zero]
  · rw [update_graphs_Uc_charge, head?_map_eq, range_500_head?]
    simp [sampleTime_zero]
  · rw [update_graphs_Uc_discharge, head?_map_eq, range_500_head?]
    simp [sampleTime_zero]

/-- Witness for C8 at `R = 1000`, `C_micro = 100`, `U0 = 5`. -/
theorem C8_initial_values_witness :
    (0:ℝ) < 1000 ∧ (0:ℝ) < 100 ∧ (0:ℝ) ≤ 5 ∧
    ((∀ m, (update_graphs 1000 100 (5:ℝ) m).tau = 1000 * (100 * 1e-6) ∧
      0 < (update_graphs 1000 100 (5:ℝ) m).tau) ∧
    (∀ m, (update_graphs 1000 100 (5:ℝ) m).t.head? = some 0) ∧
    (update_graphs 1000 100 (5:ℝ) true).Uc.head? = some 0 ∧
    (update_graphs 1000 100 (5:ℝ) false).Uc.head? = some 5) :=
  ⟨by norm_num, by norm_num, by norm_num,
    C8_initial_values 1000 100 5 (by norm_num) (by norm_num) (by norm_num)⟩

/-- C9: for `R > 0`, `C_micro > 0` and any `U0`, in both modes the four result
sequences have length exactly 500 and every entry is finite, bounded by an
explicit finite bound (the model uses exact real arithmetic, so boundedness is
the residue of the no-NaN/no-Inf guarantee); `tau` and `t_max` are strictly
positive. -/
theorem C9_safety (R Cm U0 : ℝ) (hR : 0 < R) (hC : 0 < Cm) (m : Bool) :
    (update_graphs R Cm U0 m).t.length = 500 ∧
    (update_graphs R Cm U0 m).Uc.length = 500 ∧
    (update_graphs R Cm U0 m).Q.length = 500 ∧
    (update_graphs R Cm U0 m).I.length = 500 ∧
    0 < (update_graphs R Cm U0 m).tau ∧
    0 < (update_graphs R Cm U0 m).t_max ∧
    (∀ y ∈ (update_graphs R Cm U0 m).t,
      0 ≤ y ∧ y ≤ (update_graphs R Cm U0 m).t_max) ∧
    (∀ y ∈ (update_graphs R Cm U0 m).Uc, |y| ≤ |U0|) ∧
    (∀ y ∈ (update_graphs R Cm U0 m).Q, |y| ≤ capacitance Cm * |U0|) ∧
    (∀ y ∈ (update_graphs R Cm U0 m).I, |y| ≤ |U0| / R) := by
  have hcap := capacitance_pos hC
  have habs : ∀ i : ℕ,
      |1 - Real.exp (-sampleTime R Cm i / timeConstant R Cm)| ≤ 1 := by
    intro i
    have h0 := expFactor_pos R Cm i
    have h1 := expFactor_le_one hR hC i
    rw [abs_le]
    constructor <;> linarith
  have hexp : ∀ i : ℕ,
      |Real.exp (-sampleTime R Cm i / timeConstant R Cm)| ≤ 1 := by
    intro i
    have h0 := expFactor_pos R Cm i
    have h1 := expFactor_le_one hR hC i
    rw [abs_le]
    constructor <;> linarith
  have ht : ∀ y ∈ (update_graphs R Cm U0 m).t,
      0 ≤ y ∧ y ≤ (update_graphs R Cm U0 m).t_max := by
    rw [update_graphs_t, update_graphs_t_max]
    intro y hy
    obtain ⟨i, hi, rfl⟩ := List.mem_map.mp hy
    exact ⟨sampleTime_nonneg R Cm i,
      sampleTime_le_windowLength R Cm (List.mem_range.mp hi)⟩
  have htau : 0 < (update_graphs R Cm U0 m).tau := by
    rw [update_graphs_tau]; exact timeConstant_pos hR hC
  have htmax : 0 < (update_graphs R Cm U0 m).t_max := by
    rw [update_graphs_t_max]; exact windowLength_pos R Cm
  cases m
  · refine ⟨?_, ?_, ?_, ?_, htau, htmax, ht, ?_, ?_, ?_⟩
    · rw [update_graphs_t, List.length_map, List.length_range]
    · rw [update_graphs_Uc_discharge, List.length_map, List.length_range]
    · rw [update_graphs_Q_discharge, List.length_map, List.length_range]
    · rw [update_graphs_I_discharge, List.length_map, List.length_range]
    · rw [update_graphs_Uc_discharge]
      intro y hy
      obtain ⟨i, -, rfl⟩ := List.mem_map.mp hy
      rw [abs_mul]
      calc |U0| * |Real.exp (-sampleTime R Cm i / timeConstant R Cm)|
          ≤ |U0| * 1 := mul_le_mul_of_nonneg_left (hexp i) (abs_nonneg U0)
        _ = |U0| := mul_one _
    · rw [update_graphs_Q_discharge]
      intro y hy
      obtain ⟨i, -, rfl⟩ := List.mem_map.mp hy
      rw [abs_mul, abs_mul, abs_of_pos hcap]
      calc capacitance Cm * |U0| * |Real.exp (-sampleTime R Cm i / timeConstant R Cm)|
          ≤ capacitance Cm * |U0| * 1 :=
            mul_le_mul_of_nonneg_left (hexp i)
              (mul_nonneg hcap.le (abs_nonneg U0))
        _ = capacitance Cm * |U0| := mul_one _
    · rw [update_graphs_I_discharge]
      intro y hy
      obtain ⟨i, -, rfl⟩ := List.mem_map.mp hy
      rw [abs_mul, abs_neg, abs_div, abs_of_pos hR]
      calc |U0| / R * |Real.exp (-sampleTime R Cm i / timeConstant R Cm)|
          ≤ |U0| / R * 1 :=
            mul_le_mul_of_nonneg_left (hexp i) (by positivity)
        _ = |U0| / R := mul_one _
  · refine ⟨?_, ?_, ?_, ?_, htau, htmax, ht, ?_, ?_, ?_⟩
    · rw [update_graphs_t, List.length_map, List.length_range]
    · rw [update_graphs_Uc_charge, List.length_map, List.length_range]
    · rw [update_graphs_Q_charge, List.length_map, List.length_range]
    · rw [update_graphs_I_charge, List.length_map, List.length_range]
    · rw [update_graphs_Uc_charge]
      intro y hy
      obtain ⟨i, -, rfl⟩ := List.mem_map.mp hy
      rw [abs_mul]
      calc |U0| * |1 - Real.exp (-sampleTime R Cm i / timeConstant R Cm)|
          ≤ |U0| * 1 := mul_le_mul_of_nonneg_left (habs i) (abs_nonneg U0)
        _ = |U0| := mul_one _
    · rw [update_graphs_Q_charge]
      intro y hy
      obtain ⟨i, -, rfl⟩ := List.mem_map.mp hy
      rw [abs_mul, abs_mul, abs_of_pos hcap]
      calc capacitance Cm * (|U0| * |1 - Real.exp (-sampleTime R Cm i / timeConstant R Cm)|)
          ≤ capacitance Cm * (|U0| * 1) :=
            mul_le_mul_of_nonneg_left
              (mul_le_mul_of_nonneg_left (habs i) (abs_nonneg U0)) hcap.le
        _ = capacitance Cm * |U0| := by rw [mul_one]
    · rw [update_graphs_I_charge]
      intro y hy
      obtain ⟨i, -, rfl⟩ := List.mem_map.mp hy
      rw [abs_mul, abs_div, abs_of_pos hR]
      calc |U0| / R * |Real.exp (-sampleTime R Cm i / timeConstant R Cm)|
          ≤ |U0| / R * 1 :=
            mul_le_mul_of_nonneg_left (hexp i) (by positivity)
        _ = |U0| / R := mul_one _

/-- Witness for C9 at `R = 1000`, `C_micro = 100`, `U0 = 5`, charging mode. -/
theorem C9_safety_witness :
    (0:ℝ) < 1000 ∧ (0:ℝ) < 100 ∧
    ((update_graphs 1000 100 (5:ℝ) true).t.length = 500 ∧
    (update_graphs 1000 100 (5:ℝ) true).Uc.length = 500 ∧
    (update_graphs 1000 100 (5:ℝ) true).Q.length = 500 ∧
    (update_graphs 1000 100 (5:ℝ) true).I.length = 500 ∧
    0 < (update_graphs 1000 100 (5:ℝ) true).tau ∧
    0 < (update_graphs 1000 100 (5:ℝ) true).t_max ∧
    (∀ y ∈ (update_graphs 1000 100 (5:ℝ) true).t,
      0 ≤ y ∧ y ≤ (update_graphs 1000 100 (5:ℝ) true).t_max) ∧
    (∀ y ∈ (update_graphs 1000 100 (5:ℝ) true).Uc, |y| ≤ |(5:ℝ)|) ∧
    (∀ y ∈ (update_graphs 1000 100 (5:ℝ) true).Q,
      |y| ≤ capacitance 100 * |(5:ℝ)|) ∧
    (∀ y ∈ (update_graphs 1000 100 (5:ℝ) true).I, |y| ≤ |(5:ℝ)| / 1000)) :=
  ⟨by norm_num, by norm_num,
    C9_safety 1000 100 5 (by norm_num) (by norm_num) true⟩

/-- C10: for `R > 0`, `C_micro > 0`, `U0 ≥ 0`, in both modes every sampled
voltage lies in `[0, U0]` and every sampled charge lies in `[0, C * U0]`. -/
theorem C10_voltage_charge_bounds (R Cm U0 : ℝ)
    (hR : 0 < R) (hC : 0 < Cm) (hU : 0 ≤ U0) (m : Bool) :
    (∀ y ∈ (update_graphs R Cm U0 m).Uc, 0 ≤ y ∧ y ≤ U0) ∧
    (∀ y ∈ (update_graphs R Cm U0 m).Q, 0 ≤ y ∧ y ≤ capacitance Cm * U0) := by
  have hcap := capacitance_pos hC
  cases m
  · constructor
    · rw [update_graphs_Uc_discharge]
      intro y hy
      obtain ⟨i, -, rfl⟩ := List.mem_map.mp hy
      have h0 := expFactor_pos R Cm i
      have h1 := expFactor_le_one hR hC i
      constructor
      · exact mul_nonneg hU h0.le
      · calc U0 * Real.exp (-sampleTime R Cm i / timeConstant R Cm)
            ≤ U0 * 1 := mul_le_mul_of_nonneg_left h1 hU
          _ = U0 := mul_one _
    · rw [update_graphs_Q_discharge]
      intro y hy
      obtain ⟨i, -, rfl⟩ := List.mem_map.mp hy
      have h0 := expFactor_pos R Cm i
      have h1 := expFactor_le_one hR hC i
      constructor
      · exact mul_nonneg (mul_nonneg hcap.le hU) h0.le
      · calc capacitance Cm * U0 * Real.exp (-sampleTime R Cm i / timeConstant R Cm)
            ≤ capacitance Cm * U0 * 1 :=
              mul_le_mul_of_nonneg_left h1 (mul_nonneg hcap.le hU)
          _ = capacitance Cm * U0 := mul_one _
  · constructor
    · rw [update_graphs_Uc_charge]
      intro y hy
      obtain ⟨i, -, rfl⟩ := List.mem_map.mp hy
      have h0 := expFactor_pos R Cm i
      have h1 := expFactor_le_one hR hC i
      constructor
      · exact mul_nonneg hU (by linarith)
      · calc U0 * (1 - Real.exp (-sampleTime R Cm i / timeConstant R Cm))
            ≤ U0 * 1 := mul_le_mul_of_nonneg_left (by linarith) hU
          _ = U0 := mul_one _
    · rw [update_graphs_Q_charge]
      intro y hy
      obtain ⟨i, -, rfl⟩ := List.mem_map.mp hy
      have h0 := expFactor_pos R Cm i
      have h1 := expFactor_le_one hR hC i
      constructor
      · exact mul_nonneg hcap.le (mul_nonneg hU (by linarith))
      · calc capacitance Cm * (U0 * (1 - Real.exp (-sampleTime R Cm i / timeConstant R Cm)))
            ≤ capacitance Cm * (U0 * 1) :=
              mul_le_mul_of_nonneg_left
                (mul_le_mul_of_nonneg_left (by linarith) hU) hcap.le
          _ = capacitance Cm * U0 := by rw [mul_one]

/-- Witness for C10 at `R = 1000`, `C_micro = 100`, `U0 = 5`, charging mode. -/
theorem C10_voltage_charge_bounds_witness :
    (0:ℝ) < 1000 ∧ (0:ℝ) < 100 ∧ (0:ℝ) ≤ 5 ∧
    ((∀ y ∈ (update_graphs 1000 100 (5:ℝ) true).Uc, 0 ≤ y ∧ y ≤ 5) ∧
    (∀ y ∈ (update_graphs 1000 100 (5:ℝ) true).Q,
      0 ≤ y ∧ y ≤ capacitance 100 * 5)) :=
  ⟨by norm_num, by norm_num, by norm_num,
    C10_voltage_charge_bounds 1000 100 5 (by norm_num) (by norm_num)
      (by norm_num) true⟩

end RC
